import Mathlib

/- Verification of the image compression subsystem (sispo/compression/compression.py). -/

namespace Sispo

/-- Python values that can occur in a settings mapping of this module:
integers, booleans, strings and the ordered cv2 parameter tuple that
`select_algo` stores under the key "params". -/
inductive Value where
  | int (n : Int)
  | bool (b : Bool)
  | str (s : String)
  | vparams (l : List Value)

/-- Errors raised by the module or by the libraries it calls.
`compressionError msg` models `raise CompressionError(msg)` (the module's
single error class; the spec's taxonomy names such as InvalidSetting map to
specific messages of this class).  `keyError` models a Python KeyError on a
missing dict key, `valueError` a numpy ValueError (frombuffer / reshape),
`indexError` an out-of-range list index. -/
inductive PyError where
  | keyError (k : String)
  | valueError (msg : String)
  | indexError (i : Nat)
  | typeError
  | compressionError (msg : String)

/-- A Python dict with string keys, as an insertion-ordered association list
(Python 3.7+ dicts preserve insertion order). -/
abbrev Dict := List (String × Value)

/-- `d[k]` lookup, `None` if absent. -/
def dictGet : Dict → String → Option Value
  | [], _ => none
  | (k, v) :: rest, key => if k = key then some v else dictGet rest key

/-- `d[k] = v`: replace in place if the key exists, else append (Python
dict insertion order semantics). -/
def dictSet : Dict → String → Value → Dict
  | [], key, val => [(key, val)]
  | (k, v) :: rest, key, val =>
      if k = key then (k, val) :: rest else (k, v) :: dictSet rest key val

/-- `d.pop(k)` (only used by the source at points where `k` is present). -/
def dictPop : Dict → String → Dict
  | [], _ => []
  | (k, v) :: rest, key => if k = key then rest else (k, v) :: dictPop rest key

/-- ASCII lower-casing of one character, as Python's `str.lower` acts on the
ASCII algorithm names this module receives. -/
def lowerChar (c : Char) : Char :=
  if 65 ≤ c.toNat ∧ c.toNat ≤ 90 then Char.ofNat (c.toNat + 32) else c

/-- `algo.lower()` for the ASCII algorithm names. -/
def pyLower (s : String) : String := ⟨s.data.map lowerChar⟩

/-- The four byte-stream compression libraries the module dispatches to. -/
inductive BAlgo where
  | bz2
  | gzip
  | lzma
  | zlib
  deriving DecidableEq

/-- The compression closure installed as `self._comp_met`: either a decorated
builtin byte-stream compressor (`_decorate_builtin_compress(<lib>.compress)`)
or the decorated `cv2.imencode` path (`_decorate_cv_compress`). -/
inductive CompMethod where
  | builtin (a : BAlgo)
  | cvEncode
  deriving DecidableEq

/-- The decompression closure installed as `self._decomp_met`. -/
inductive DecompMethod where
  | builtinD (a : BAlgo)
  | cvDecode
  deriving DecidableEq

/-- cv2.IMWRITE_JPEG_QUALITY -/
def IMWRITE_JPEG_QUALITY : Int := 1
/-- cv2.IMWRITE_JPEG_PROGRESSIVE -/
def IMWRITE_JPEG_PROGRESSIVE : Int := 2
/-- cv2.IMWRITE_JPEG_OPTIMIZE -/
def IMWRITE_JPEG_OPTIMIZE : Int := 3
/-- cv2.IMWRITE_JPEG_RST_INTERVAL -/
def IMWRITE_JPEG_RST_INTERVAL : Int := 4
/-- cv2.IMWRITE_JPEG_LUMA_QUALITY -/
def IMWRITE_JPEG_LUMA_QUALITY : Int := 5
/-- cv2.IMWRITE_JPEG_CHROMA_QUALITY -/
def IMWRITE_JPEG_CHROMA_QUALITY : Int := 6
/-- cv2.IMWRITE_PNG_COMPRESSION -/
def IMWRITE_PNG_COMPRESSION : Int := 16

/-- Python `isinstance(v, bool)`. -/
def isInstBool : Value → Bool
  | .bool _ => true
  | _ => false

/-- Python `isinstance(v, int)`: `bool` is a subclass of `int` in Python, so
boolean values also pass this check. -/
def isInstInt : Value → Bool
  | .int _ => true
  | .bool _ => true
  | _ => false

/-- Python `v * 10` for the value kinds of this model: integer multiplication,
booleans coerce to 0/1, strings and tuples are repeated ten times. -/
def pyMulTen : Value → Value
  | .int n => .int (n * 10)
  | .bool b => .int (if b then 10 else 0)
  | .str s => .str (String.join (List.replicate 10 s))
  | .vparams l => .vparams (List.flatten (List.replicate 10 l))

/-- One optional JPEG setting check from `select_algo`: if `key` is absent the
parameter tuple is unchanged; if present with an accepted type the cv2 flag
and the raw value are appended; otherwise `CompressionError(msg)` is raised. -/
def checkFlagOpt (accepts : Value → Bool) (s : Dict) (key : String) (flag : Int)
    (msg : String) (ps : List Value) : Except PyError (List Value) :=
  match dictGet s key with
  | none => .ok ps
  | some v => if accepts v then .ok (ps ++ [.int flag, v]) else .error (.compressionError msg)

/-- The five sequential optional-setting checks of the `jpeg`/`jpg` branch of
`select_algo`, in source order, starting from the quality parameter pair. -/
def jpegParams (s : Dict) (ps0 : List Value) : Except PyError (List Value) := do
  let p1 ← checkFlagOpt isInstBool s "progressive" IMWRITE_JPEG_PROGRESSIVE
    "JPEG progressive requires bool" ps0
  let p2 ← checkFlagOpt isInstBool s "optimize" IMWRITE_JPEG_OPTIMIZE
    "JPEG optimize requires bool input" p1
  let p3 ← checkFlagOpt isInstInt s "rst_interval" IMWRITE_JPEG_RST_INTERVAL
    "JPEG rst_interval requires int" p2
  let p4 ← checkFlagOpt isInstInt s "luma_quality" IMWRITE_JPEG_LUMA_QUALITY
    "JPEG luma_quality requires int" p3
  checkFlagOpt isInstInt s "chroma_quality" IMWRITE_JPEG_CHROMA_QUALITY
    "JPEG chroma_quality requires int" p4

/-- A byte-stream branch of `select_algo` that renames `level` to `newKey`
(bz2/gzip: `compresslevel`, lzma: `preset`): `settings[newKey] =
settings["level"]; settings.pop("level")`, raising KeyError when `level` is
absent, then installs the decorated codec pair. -/
def renameLevelBranch (s : Dict) (newKey : String) (a : BAlgo) :
    Dict × Except PyError (CompMethod × DecompMethod) :=
  match dictGet s "level" with
  | none => (s, .error (.keyError "level"))
  | some v => (dictPop (dictSet s newKey v) "level", .ok (.builtin a, .builtinD a))

/-- The `jpeg`/`jpg` branch of `select_algo`: sets `settings["ext"] = ".jpg"`,
builds the quality pair from `settings["level"] * 10`, runs the five optional
checks, and on success stores the tuple under `settings["params"]`. -/
def jpegBranch (s : Dict) : Dict × Except PyError (CompMethod × DecompMethod) :=
  let s1 := dictSet s "ext" (.str ".jpg")
  match dictGet s1 "level" with
  | none => (s1, .error (.keyError "level"))
  | some lv =>
    match jpegParams s1 [.int IMWRITE_JPEG_QUALITY, pyMulTen lv] with
    | .error e => (s1, .error e)
    | .ok ps => (dictSet s1 "params" (.vparams ps), .ok (.cvEncode, .cvDecode))

/-- The `elif "png":` branch of `select_algo`: sets `settings["ext"] = ".png"`,
builds the parameter pair from `settings["level"]`, pops `level` and stores the
tuple under `settings["params"]`.  In the source this branch tests the literal
string `"png"` (not `algo == "png"`), which is always truthy, so it is reached
by every algorithm name that did not match an earlier branch; the final
`else: raise CompressionError("Unknown compression algorithm.")` is
unreachable. -/
def pngBranch (s : Dict) : Dict × Except PyError (CompMethod × DecompMethod) :=
  let s1 := dictSet s "ext" (.str ".png")
  match dictGet s1 "level" with
  | none => (s1, .error (.keyError "level"))
  | some lv =>
    (dictSet (dictPop s1 "level") "params"
       (.vparams [.int IMWRITE_PNG_COMPRESSION, lv]),
     .ok (.cvEncode, .cvDecode))

/-- `Compressor.select_algo`, as a function from the algorithm name and the
caller's settings dict to the (mutated-in-place) settings dict together with
either the selected codec pair or the raised error.  The dict component is
returned in both cases because the source mutates `settings` before it can
raise. -/
def selectAlgoSt (algo0 : String) (settings : Dict) :
    Dict × Except PyError (CompMethod × DecompMethod) :=
  let algo := pyLower algo0
  if algo = "bz2" then renameLevelBranch settings "compresslevel" .bz2
  else if algo = "gzip" then renameLevelBranch settings "compresslevel" .gzip
  else if algo = "lzma" then renameLevelBranch settings "preset" .lzma
  else if algo = "zlib" then (settings, .ok (.builtin .zlib, .builtinD .zlib))
  else if algo = "jpeg" ∨ algo = "jpg" then jpegBranch settings
  else pngBranch settings

/-- A numpy ndarray: a shape together with the flat sample buffer.  A float32
sample is modelled by its 32-bit pattern, a `Nat` below `2 ^ 32`, so that the
byte-stream pipeline (which never interprets samples numerically, only copies
their bytes) is bit-exact without modelling floating point. -/
structure NDArray where
  shape : List Nat
  data : List Nat
  deriving DecidableEq

/-- Number of rows of the fixed image geometry hard-coded in
`_decorate_builtin_decompress` (`reshape((2048,2464,3))`). -/
def imgRows : Nat := 2048
/-- Number of columns of the fixed image geometry. -/
def imgCols : Nat := 2464
/-- Number of channels of the fixed image geometry. -/
def imgChans : Nat := 3
/-- Total float32 element count of the fixed image geometry. -/
def imgElems : Nat := imgRows * imgCols * imgChans

/-- The four little-endian bytes of one float32 sample's 32-bit pattern. -/
def word32ToBytes (w : Nat) : List Nat :=
  [w % 256, w / 256 % 256, w / 65536 % 256, w / 16777216 % 256]

/-- The raw byte buffer of a float32 sample list, as the buffer protocol
exposes a numpy float32 array to the byte-stream compressors. -/
def serializeF32 : List Nat → List Nat
  | [] => []
  | w :: ws => word32ToBytes w ++ serializeF32 ws

/-- `np.frombuffer(buf, dtype=np.float32)` on a buffer whose length is a
multiple of four: reassemble consecutive little-endian 4-byte groups into
32-bit patterns (a trailing fragment shorter than four bytes is never reached
because `frombuffer` raises first; the model simply drops it). -/
def bytesToWords : List Nat → List Nat
  | b0 :: b1 :: b2 :: b3 :: rest =>
      (b0 + 256 * b1 + 65536 * b2 + 16777216 * b3) :: bytesToWords rest
  | _ => []

/-- An external byte-stream compression library (`bz2`, `gzip`, `lzma` or
`zlib`): `compress` receives the keyword-argument dict the decorated closure
forwards via `func(img, **settings)` together with the input buffer, and
`lossless` is the library's documented contract that decompression inverts
compression for every valid parameterisation. -/
structure ByteCodec where
  compress : Dict → List Nat → List Nat
  decompress : List Nat → List Nat
  lossless : ∀ st buf, decompress (compress st buf) = buf

/-- The external collaborators of the module: the four byte-stream libraries
and the cv2 image-container functions.  `quantizeU8` models the
`img * 255; astype(np.uint8)` float quantisation step (floating-point, kept
abstract), `imencode`/`imdecode` model `cv2.imencode`/`cv2.imdecode`. -/
structure ExtCodecs where
  bz2c : ByteCodec
  gzipc : ByteCodec
  lzmac : ByteCodec
  zlibc : ByteCodec
  quantizeU8 : NDArray → NDArray
  imencode : String → NDArray → List Value → List Nat
  imdecode : List Nat → NDArray

/-- The library a `BAlgo` tag refers to. -/
def ExtCodecs.get (E : ExtCodecs) : BAlgo → ByteCodec
  | .bz2 => E.bz2c
  | .gzip => E.gzipc
  | .lzma => E.lzmac
  | .zlib => E.zlibc

/-- The closure produced by `_decorate_builtin_decompress(func)`: decompress
the artifact, reinterpret the buffer as float32 (`np.frombuffer` raises
ValueError unless the length is a multiple of the 4-byte element size), and
`reshape((2048,2464,3))` (ValueError unless the element count matches). -/
def decodeBuiltin (c : ByteCodec) (artifact : List Nat) : Except PyError NDArray :=
  let buf := c.decompress artifact
  if buf.length % 4 ≠ 0 then
    .error (.valueError "buffer size must be a multiple of element size")
  else
    let ws := bytesToWords buf
    if ws.length = imgElems then
      .ok { shape := [imgRows, imgCols, imgChans], data := ws }
    else
      .error (.valueError "cannot reshape array")

/-- Run the installed compression closure on one image with the resolved
settings.  The builtin path is `func(img, **settings)` on the image's raw
buffer; the cv path reads `settings["ext"]` and `settings["params"]`,
quantises to uint8 and calls `cv2.imencode`. -/
def runCompMet (E : ExtCodecs) (m : CompMethod) (st : Dict) (img : NDArray) :
    Except PyError (List Nat) :=
  match m with
  | .builtin a => .ok ((E.get a).compress st (serializeF32 img.data))
  | .cvEncode =>
    match dictGet st "ext" with
    | none => .error (.keyError "ext")
    | some extv =>
      match dictGet st "params" with
      | none => .error (.keyError "params")
      | some pv =>
        match extv, pv with
        | .str ext, .vparams ps => .ok (E.imencode ext (E.quantizeU8 img) ps)
        | _, _ => .error .typeError

/-- Run the installed decompression closure on one artifact. -/
def runDecompMet (E : ExtCodecs) (m : DecompMethod) (artifact : List Nat) :
    Except PyError NDArray :=
  match m with
  | .builtinD a => decodeBuiltin (E.get a) artifact
  | .cvDecode => .ok (E.imdecode artifact)

/-- The on-disk result directory, as a map from file path to written bytes. -/
abbrev FileSys := List (String × List Nat)

/-- `open(path, "wb"); file.write(content)`: create or truncate. -/
def fsWrite : FileSys → String → List Nat → FileSys
  | [], path, content => [(path, content)]
  | (p, c) :: rest, path, content =>
      if p = path then (p, content) :: rest else (p, c) :: fsWrite rest path content

/-- Read back a written file. -/
def fsRead : FileSys → String → Option (List Nat)
  | [], _ => none
  | (p, c) :: rest, path => if p = path then some c else fsRead rest path

/-- The `Compressor` facade's state: the image directory path, the loaded
image list, the frame-identifier list set by `load_images`, and the resolved
configuration `_comp_met` / `_decomp_met` / `_settings`. -/
structure Compressor where
  image_dir : String
  imgs : List NDArray
  img_ids : List String
  compMet : CompMethod
  decompMet : DecompMethod
  settings : Dict

/-- `select_algo` as the stateful method: on success the three configuration
attributes are assigned (the assignments are the last statements of the
source method); on an error raised earlier the method leaves the receiver
untouched, but the caller's settings dict keeps any in-place mutation already
performed. -/
def Compressor.selectAlgoRun (c : Compressor) (algo : String) (s : Dict) :
    Compressor × Dict × Except PyError Unit :=
  match selectAlgoSt algo s with
  | (s1, .error e) => (c, s1, .error e)
  | (s1, .ok (cm, dm)) =>
    ({ c with compMet := cm, decompMet := dm, settings := s1 }, s1, .ok ())

/-- `Compressor.__init__`: defaults `algo` to `"lzma"` and `settings` to
`{"level": 9}` when unspecified, sets `image_dir = res_dir / "rendering"`,
and calls `select_algo`. -/
def Compressor.init (res_dir : String) (algo? : Option String) (settings? : Option Dict) :
    Dict × Except PyError Compressor :=
  let a := match algo? with
    | none => "lzma"
    | some x => x
  let s := match settings? with
    | none => [("level", Value.int 9)]
    | some d => d
  match selectAlgoSt a s with
  | (s1, .error e) => (s1, .error e)
  | (s1, .ok (cm, dm)) =>
    (s1, .ok { image_dir := res_dir ++ "/rendering", imgs := [], img_ids := [],
               compMet := cm, decompMet := dm, settings := s1 })

/-- `Compressor.compress(img)`: run the resolved encode closure, write the
artifact to `image_dir / img_ids[0]` (IndexError when no frames were loaded),
and return the artifact. -/
def Compressor.compress (c : Compressor) (E : ExtCodecs) (fs : FileSys) (img : NDArray) :
    Except PyError (List Nat × FileSys) :=
  match runCompMet E c.compMet c.settings img with
  | .error e => .error e
  | .ok art =>
    match c.img_ids with
    | [] => .error (.indexError 0)
    | id0 :: _ => .ok (art, fsWrite fs (c.image_dir ++ "/" ++ id0) art)

/-- `Compressor.load_images(img_ids)`: store the id list (the given one, or
the one `get_frame_ids` derives from the rendering directory, passed here as
`frameIds`), then read each image `Comp_<id>.exr` with the external reader
and append it to `self.imgs` in a loop. -/
def Compressor.loadImages (c : Compressor) (reader : String → NDArray)
    (img_ids? : Option (List String)) (frameIds : List String) : Compressor :=
  let ids := match img_ids? with
    | none => frameIds
    | some l => l
  { c with
    img_ids := ids,
    imgs := ids.foldl
      (fun acc id => acc ++ [reader (c.image_dir ++ "/Comp_" ++ id ++ ".exr")])
      c.imgs }

/-- Identity byte codec, a concrete external-library stand-in for witnesses. -/
def idCodec : ByteCodec where
  compress := fun _ buf => buf
  decompress := fun buf => buf
  lossless := fun _ _ => rfl

/-- A concrete external-collaborator bundle built from identity codecs, used
to instantiate theorems at concrete inputs. -/
def trivialExt : ExtCodecs where
  bz2c := idCodec
  gzipc := idCodec
  lzmac := idCodec
  zlibc := idCodec
  quantizeU8 := fun a => a
  imencode := fun _ img _ => serializeF32 img.data
  imdecode := fun buf => { shape := [buf.length], data := bytesToWords buf }

/-- The all-zero image of the fixed shape. -/
def zeroImg : NDArray where
  shape := [imgRows, imgCols, imgChans]
  data := List.replicate imgElems 0

/-- Every present value of `key` passes the `accepts` type check: the
condition under which one optional-setting check of the jpeg branch cannot
raise. -/
def optTyped (accepts : Value → Bool) (s : Dict) (key : String) : Prop :=
  ∀ v, dictGet s key = some v → accepts v = true

/-- A concrete compressor value used to instantiate facade theorems. -/
def witnessCompressor : Compressor where
  image_dir := "d"
  imgs := []
  img_ids := ["000"]
  compMet := .builtin .zlib
  decompMet := .builtinD .zlib
  settings := []

/-- A sequence of `load_images` calls, each given the optional explicit id
list and the frame ids the directory scan would produce at that moment. -/
def applyLoads (reader : String → NDArray) (c : Compressor) :
    List (Option (List String) × List String) → Compressor
  | [] => c
  | (ids?, der) :: rest => applyLoads reader (c.loadImages reader ids? der) rest

theorem dictGet_set_self (d : Dict) (k : String) (v : Value) :
    dictGet (dictSet d k v) k = some v := by
  induction d with
  | nil => simp [dictSet, dictGet]
  | cons hd tl ih =>
    obtain ⟨k0, v0⟩ := hd
    by_cases h : k0 = k
    · simp [dictSet, dictGet, h]
    · simp [dictSet, dictGet, h, ih]

theorem dictGet_set_ne (d : Dict) (k k' : String) (v : Value) (hne : k' ≠ k) :
    dictGet (dictSet d k' v) k = dictGet d k := by
  induction d with
  | nil => simp [dictSet, dictGet, hne]
  | cons hd tl ih =>
    obtain ⟨k0, v0⟩ := hd
    by_cases h : k0 = k'
    · subst h
      simp [dictSet, dictGet, hne]
    · simp [dictSet, dictGet, h, ih]

theorem serializeF32_length (l : List Nat) :
    (serializeF32 l).length = 4 * l.length := by
  induction l with
  | nil => rfl
  | cons w ws ih =>
    simp [serializeF32, word32ToBytes, ih]
    omega

theorem bytesToWords_serializeF32 (l : List Nat) (h : ∀ x ∈ l, x < 4294967296) :
    bytesToWords (serializeF32 l) = l := by
  induction l with
  | nil => rfl
  | cons w ws ih =>
    have hw : w < 4294967296 := h w (List.mem_cons_self w ws)
    have hrest : ∀ x ∈ ws, x < 4294967296 := fun x hx => h x (List.mem_cons_of_mem w hx)
    show bytesToWords (word32ToBytes w ++ serializeF32 ws) = w :: ws
    simp only [word32ToBytes, List.cons_append, List.nil_append, List.append_nil,
      bytesToWords, List.append_eq]
    rw [ih hrest]
    congr 1
    omega

theorem bytesToWords_length : ∀ l : List Nat, (bytesToWords l).length = l.length / 4
  | [] => by simp [bytesToWords]
  | [_] => by simp [bytesToWords]
  | [_, _] => by simp [bytesToWords]
  | [_, _, _] => by simp [bytesToWords]
  | _ :: _ :: _ :: _ :: rest => by
    simp [bytesToWords, bytesToWords_length rest]
    omega

theorem runDecompMet_builtinD (E : ExtCodecs) (a : BAlgo) (art : List Nat) :
    runDecompMet E (.builtinD a) art = decodeBuiltin (E.get a) art := rfl

/-- C2: decoding a byte-stream artifact whose decompressed byte length is not
exactly that of 2048 x 2464 x 3 float32 elements fails with the
reconstruction-size error (a ValueError from `np.frombuffer` or `reshape`,
the failure the spec's taxonomy calls ReconstructionError), and a successful
decode always returns the full buffer reshaped to the exact fixed shape,
never a truncated or padded array. -/
theorem c2_bytestream_decode_guard (E : ExtCodecs) (a : BAlgo) (art : List Nat) :
    (((E.get a).decompress art).length ≠ 4 * imgElems →
      ∃ msg, runDecompMet E (.builtinD a) art = .error (.valueError msg)) ∧
    (∀ arr, runDecompMet E (.builtinD a) art = .ok arr →
      arr.shape = [imgRows, imgCols, imgChans] ∧ arr.data.length = imgElems ∧
      arr.data = bytesToWords ((E.get a).decompress art)) := by
  constructor
  · intro hlen
    rw [runDecompMet_builtinD]
    simp only [decodeBuiltin]
    by_cases h4 : ((E.get a).decompress art).length % 4 = 0
    · have hne : ¬ (bytesToWords ((E.get a).decompress art)).length = imgElems := by
        rw [bytesToWords_length]
        omega
      simp [h4, hne]
    · simp [h4]
  · intro arr harr
    rw [runDecompMet_builtinD] at harr
    simp only [decodeBuiltin] at harr
    split at harr
    · exact absurd harr (by simp)
    · split at harr
      · rename_i hws
        injection harr with h
        subst h
        exact ⟨rfl, hws, rfl⟩
      · exact absurd harr (by simp)

/-- C2 witness: the empty artifact decompresses (identity codec) to length 0,
which mismatches the expected raw size, so decoding fails. -/
theorem c2_witness :
    ((trivialExt.get .bz2).decompress []).length ≠ 4 * imgElems ∧
    ∃ msg, runDecompMet trivialExt (.builtinD .bz2) [] = .error (.valueError msg) := by
  refine ⟨by decide, ?_⟩
  exact (c2_bytestream_decode_guard trivialExt .bz2 []).1 (by decide)

/-- C3: for every byte-stream algorithm (bz2, gzip, lzma, zlib), every
settings mapping and every image of the fixed 2048 x 2464 x 3 float32 shape,
decoding the encoded artifact with the resolved codec pair reconstructs the
original image bit-for-bit with the exact fixed shape. -/
theorem c3_lossless_roundtrip (E : ExtCodecs) (a : BAlgo) (st : Dict) (img : NDArray)
    (hsh : img.shape = [imgRows, imgCols, imgChans])
    (hlen : img.data.length = imgElems)
    (hbound : ∀ x ∈ img.data, x < 4294967296) :
    ∃ art, runCompMet E (.builtin a) st img = .ok art ∧
      runDecompMet E (.builtinD a) art = .ok img := by
  refine ⟨(E.get a).compress st (serializeF32 img.data), rfl, ?_⟩
  rw [runDecompMet_builtinD]
  simp only [decodeBuiltin]
  rw [(E.get a).lossless]
  have hb : bytesToWords (serializeF32 img.data) = img.data :=
    bytesToWords_serializeF32 _ hbound
  have h4 : (serializeF32 img.data).length % 4 = 0 := by
    rw [serializeF32_length]
    omega
  obtain ⟨sh, da⟩ := img
  simp only at hsh hlen hb
  simp [h4, hb, hlen, hsh]

/-- C3 witness: the all-zero image of the fixed shape round-trips through the
lzma codec pair with the default resolved settings. -/
theorem c3_witness :
    ∃ art, runCompMet trivialExt (.builtin .lzma) [("preset", Value.int 9)] zeroImg = .ok art ∧
      runDecompMet trivialExt (.builtinD .lzma) art = .ok zeroImg := by
  refine c3_lossless_roundtrip trivialExt .lzma [("preset", Value.int 9)] zeroImg rfl ?_ ?_
  · simp [zeroImg]
  · intro x hx
    have := List.eq_of_mem_replicate hx
    subst this
    decide

theorem selectAlgoSt_jpeg (s : Dict) : selectAlgoSt "jpeg" s = jpegBranch s := rfl

theorem selectAlgoSt_jpg (s : Dict) : selectAlgoSt "jpg" s = jpegBranch s := rfl

theorem selectAlgoSt_zlib (s : Dict) :
    selectAlgoSt "zlib" s = (s, .ok (.builtin .zlib, .builtinD .zlib)) := rfl

theorem selectAlgoSt_lzma (s : Dict) :
    selectAlgoSt "lzma" s = renameLevelBranch s "preset" .lzma := rfl

/-- C1 (code bug): selecting the unsupported name "webp" does not raise the
unknown-algorithm error.  The source line `elif "png":` tests the truthy
literal `"png"` instead of `algo == "png"`, so every name that missed the
earlier branches is handled as PNG: the call succeeds and installs the
cv2 codec pair, and the final `else` raising
`CompressionError("Unknown compression algorithm.")` is unreachable. -/
theorem c1_unknown_algo_installs_png :
    selectAlgoSt "webp" [("level", Value.int 9)] =
      ([("ext", Value.str ".png"),
        ("params", Value.vparams [Value.int 16, Value.int 9])],
       .ok (.cvEncode, .cvDecode)) := rfl

theorem checkFlagOpt_err (accepts : Value → Bool) (s : Dict) (key : String)
    (flag : Int) (msg : String) (ps : List Value) (v : Value)
    (hv : dictGet s key = some v) (hbad : accepts v = false) :
    checkFlagOpt accepts s key flag msg ps = .error (.compressionError msg) := by
  simp [checkFlagOpt, hv, hbad]

theorem checkFlagOpt_ok_of (accepts : Value → Bool) (s : Dict) (key : String)
    (flag : Int) (msg : String) (ps : List Value)
    (hok : optTyped accepts s key) :
    ∃ ps', checkFlagOpt accepts s key flag msg ps = .ok ps' := by
  cases h : dictGet s key with
  | none => exact ⟨ps, by simp [checkFlagOpt, h]⟩
  | some v => exact ⟨ps ++ [.int flag, v], by simp [checkFlagOpt, h, hok v h]⟩

theorem checkFlagOpt_ok_shape (accepts : Value → Bool) (s : Dict) (key : String)
    (flag : Int) (msg : String) (ps ps' : List Value)
    (h : checkFlagOpt accepts s key flag msg ps = .ok ps') :
    ps' = ps ++ (match dictGet s key with
                 | none => []
                 | some v => [.int flag, v]) := by
  cases hk : dictGet s key with
  | none =>
    simp [checkFlagOpt, hk] at h
    simp [h.symm]
  | some v =>
    cases hacc : accepts v with
    | true =>
      simp [checkFlagOpt, hk, hacc] at h
      simp [h.symm]
    | false =>
      simp [checkFlagOpt, hk, hacc] at h

theorem jpegBranch_eq (s : Dict) (lv : Value) (hlvl : dictGet s "level" = some lv) :
    jpegBranch s =
      (match jpegParams (dictSet s "ext" (.str ".jpg"))
          [.int IMWRITE_JPEG_QUALITY, pyMulTen lv] with
       | .error e => (dictSet s "ext" (.str ".jpg"), .error e)
       | .ok ps => (dictSet (dictSet s "ext" (.str ".jpg")) "params" (.vparams ps),
                    .ok (.cvEncode, .cvDecode))) := by
  have h1 : dictGet (dictSet s "ext" (.str ".jpg")) "level" = some lv := by
    rw [dictGet_set_ne _ _ _ _ (by decide)]
    exact hlvl
  simp [jpegBranch, h1]

theorem jpegParams_err_prog (s1 : Dict) (v : Value) (ps0 : List Value)
    (hv : dictGet s1 "progressive" = some v) (hb : isInstBool v = false) :
    jpegParams s1 ps0 = .error (.compressionError "JPEG progressive requires bool") := by
  simp [jpegParams, checkFlagOpt_err _ _ _ _ _ ps0 v hv hb, Except.bind, Bind.bind, Except.instMonad]

theorem jpegParams_err_opt (s1 : Dict) (v : Value) (ps0 : List Value)
    (hprog : optTyped isInstBool s1 "progressive")
    (hv : dictGet s1 "optimize" = some v) (hb : isInstBool v = false) :
    jpegParams s1 ps0 = .error (.compressionError "JPEG optimize requires bool input") := by
  obtain ⟨p1, h1⟩ := checkFlagOpt_ok_of isInstBool s1 "progressive"
    IMWRITE_JPEG_PROGRESSIVE "JPEG progressive requires bool" ps0 hprog
  simp [jpegParams, h1, checkFlagOpt_err _ _ _ _ _ p1 v hv hb, Except.bind, Bind.bind, Except.instMonad]

theorem jpegParams_err_rst (s1 : Dict) (v : Value) (ps0 : List Value)
    (hprog : optTyped isInstBool s1 "progressive")
    (hopt : optTyped isInstBool s1 "optimize")
    (hv : dictGet s1 "rst_interval" = some v) (hb : isInstInt v = false) :
    jpegParams s1 ps0 = .error (.compressionError "JPEG rst_interval requires int") := by
  obtain ⟨p1, h1⟩ := checkFlagOpt_ok_of isInstBool s1 "progressive"
    IMWRITE_JPEG_PROGRESSIVE "JPEG progressive requires bool" ps0 hprog
  obtain ⟨p2, h2⟩ := checkFlagOpt_ok_of isInstBool s1 "optimize"
    IMWRITE_JPEG_OPTIMIZE "JPEG optimize requires bool input" p1 hopt
  simp [jpegParams, h1, h2, checkFlagOpt_err _ _ _ _ _ p2 v hv hb, Except.bind, Bind.bind, Except.instMonad]

theorem jpegParams_err_luma (s1 : Dict) (v : Value) (ps0 : List Value)
    (hprog : optTyped isInstBool s1 "progressive")
    (hopt : optTyped isInstBool s1 "optimize")
    (hrst : optTyped isInstInt s1 "rst_interval")
    (hv : dictGet s1 "luma_quality" = some v) (hb : isInstInt v = false) :
    jpegParams s1 ps0 = .error (.compressionError "JPEG luma_quality requires int") := by
  obtain ⟨p1, h1⟩ := checkFlagOpt_ok_of isInstBool s1 "progressive"
    IMWRITE_JPEG_PROGRESSIVE "JPEG progressive requires bool" ps0 hprog
  obtain ⟨p2, h2⟩ := checkFlagOpt_ok_of isInstBool s1 "optimize"
    IMWRITE_JPEG_OPTIMIZE "JPEG optimize requires bool input" p1 hopt
  obtain ⟨p3, h3⟩ := checkFlagOpt_ok_of isInstInt s1 "rst_interval"
    IMWRITE_JPEG_RST_INTERVAL "JPEG rst_interval requires int" p2 hrst
  simp [jpegParams, h1, h2, h3, checkFlagOpt_err _ _ _ _ _ p3 v hv hb, Except.bind, Bind.bind, Except.instMonad]

theorem jpegParams_err_chroma (s1 : Dict) (v : Value) (ps0 : List Value)
    (hprog : optTyped isInstBool s1 "progressive")
    (hopt : optTyped isInstBool s1 "optimize")
    (hrst : optTyped isInstInt s1 "rst_interval")
    (hluma : optTyped isInstInt s1 "luma_quality")
    (hv : dictGet s1 "chroma_quality" = some v) (hb : isInstInt v = false) :
    jpegParams s1 ps0 = .error (.compressionError "JPEG chroma_quality requires int") := by
  obtain ⟨p1, h1⟩ := checkFlagOpt_ok_of isInstBool s1 "progressive"
    IMWRITE_JPEG_PROGRESSIVE "JPEG progressive requires bool" ps0 hprog
  obtain ⟨p2, h2⟩ := checkFlagOpt_ok_of isInstBool s1 "optimize"
    IMWRITE_JPEG_OPTIMIZE "JPEG optimize requires bool input" p1 hopt
  obtain ⟨p3, h3⟩ := checkFlagOpt_ok_of isInstInt s1 "rst_interval"
    IMWRITE_JPEG_RST_INTERVAL "JPEG rst_interval requires int" p2 hrst
  obtain ⟨p4, h4⟩ := checkFlagOpt_ok_of isInstInt s1 "luma_quality"
    IMWRITE_JPEG_LUMA_QUALITY "JPEG luma_quality requires int" p3 hluma
  simp [jpegParams, h1, h2, h3, h4, checkFlagOpt_err _ _ _ _ _ p4 v hv hb, Except.bind, Bind.bind, Except.instMonad]

theorem dictGet_jpgExt (s : Dict) (key : String) (h : "ext" ≠ key) :
    dictGet (dictSet s "ext" (.str ".jpg")) key = dictGet s key :=
  dictGet_set_ne s key "ext" _ h

theorem optTyped_jpgExt (accepts : Value → Bool) (s : Dict) (key : String)
    (h : "ext" ≠ key) (hok : optTyped accepts s key) :
    optTyped accepts (dictSet s "ext" (.str ".jpg")) key := by
  intro v hv
  rw [dictGet_jpgExt s key h] at hv
  exact hok v hv

/-- C4: selecting `jpeg` with a settings mapping whose `progressive` value is
not a boolean raises `CompressionError("JPEG progressive requires bool")`
(the spec taxonomy's InvalidSetting) inside `select_algo`, before any encode
can run; likewise `optimize` requires bool, and `rst_interval`,
`luma_quality`, `chroma_quality` require int (a Python `int`, which includes
`bool` values), each raising the corresponding message, provided the options
checked earlier in source order are absent or well-typed.  The mapping must
contain `level`, which `select_algo` reads first to build the quality
parameter. -/
theorem c4_jpeg_setting_type_errors (s : Dict) (lv : Value)
    (hlvl : dictGet s "level" = some lv) :
    (∀ v, dictGet s "progressive" = some v → isInstBool v = false →
      (selectAlgoSt "jpeg" s).2 =
        .error (.compressionError "JPEG progressive requires bool"))
  ∧ (optTyped isInstBool s "progressive" →
     ∀ v, dictGet s "optimize" = some v → isInstBool v = false →
      (selectAlgoSt "jpeg" s).2 =
        .error (.compressionError "JPEG optimize requires bool input"))
  ∧ (optTyped isInstBool s "progressive" → optTyped isInstBool s "optimize" →
     ∀ v, dictGet s "rst_interval" = some v → isInstInt v = false →
      (selectAlgoSt "jpeg" s).2 =
        .error (.compressionError "JPEG rst_interval requires int"))
  ∧ (optTyped isInstBool s "progressive" → optTyped isInstBool s "optimize" →
     optTyped isInstInt s "rst_interval" →
     ∀ v, dictGet s "luma_quality" = some v → isInstInt v = false →
      (selectAlgoSt "jpeg" s).2 =
        .error (.compressionError "JPEG luma_quality requires int"))
  ∧ (optTyped isInstBool s "progressive" → optTyped isInstBool s "optimize" →
     optTyped isInstInt s "rst_interval" → optTyped isInstInt s "luma_quality" →
     ∀ v, dictGet s "chroma_quality" = some v → isInstInt v = false →
      (selectAlgoSt "jpeg" s).2 =
        .error (.compressionError "JPEG chroma_quality requires int")) := by
  rw [selectAlgoSt_jpeg, jpegBranch_eq s lv hlvl]
  refine ⟨?_, ?_, ?_, ?_, ?_⟩
  · intro v hv hb
    rw [jpegParams_err_prog _ v _ ((dictGet_jpgExt s _ (by decide)).trans hv) hb]
  · intro hprog v hv hb
    rw [jpegParams_err_opt _ v _ (optTyped_jpgExt _ s _ (by decide) hprog)
      ((dictGet_jpgExt s _ (by decide)).trans hv) hb]
  · intro hprog hopt v hv hb
    rw [jpegParams_err_rst _ v _ (optTyped_jpgExt _ s _ (by decide) hprog)
      (optTyped_jpgExt _ s _ (by decide) hopt)
      ((dictGet_jpgExt s _ (by decide)).trans hv) hb]
  · intro hprog hopt hrst v hv hb
    rw [jpegParams_err_luma _ v _ (optTyped_jpgExt _ s _ (by decide) hprog)
      (optTyped_jpgExt _ s _ (by decide) hopt)
      (optTyped_jpgExt _ s _ (by decide) hrst)
      ((dictGet_jpgExt s _ (by decide)).trans hv) hb]
  · intro hprog hopt hrst hluma v hv hb
    rw [jpegParams_err_chroma _ v _ (optTyped_jpgExt _ s _ (by decide) hprog)
      (optTyped_jpgExt _ s _ (by decide) hopt)
      (optTyped_jpgExt _ s _ (by decide) hrst)
      (optTyped_jpgExt _ s _ (by decide) hluma)
      ((dictGet_jpgExt s _ (by decide)).trans hv) hb]

/-- C4 witness: a settings mapping with an integer `progressive` fails at
selection with the progressive type error. -/
theorem c4_witness :
    (selectAlgoSt "jpeg" [("level", Value.int 3), ("progressive", Value.int 1)]).2 =
      .error (.compressionError "JPEG progressive requires bool") :=
  (c4_jpeg_setting_type_errors [("level", Value.int 3), ("progressive", Value.int 1)]
    (Value.int 3) rfl).1 (Value.int 1) rfl rfl

/-- C5 counterexample: after selecting `zlib` with `{"level": 9}` the resolved
settings still contain `"level" -> 9` (the branch neither renames nor pops the
key), and the encode path forwards exactly these settings as the keyword
arguments of `zlib.compress` (`func(img, **settings)`).  So the generic level
setting IS passed to the codec as its `level` parameter, contradicting the
claim that it is unused and that zlib's default level applies. -/
theorem c5_counterexample :
    (selectAlgoSt "zlib" [("level", Value.int 9)]).1 = [("level", Value.int 9)] ∧
    dictGet (selectAlgoSt "zlib" [("level", Value.int 9)]).1 "level" =
      some (Value.int 9) ∧
    runCompMet trivialExt (.builtin .zlib)
        (selectAlgoSt "zlib" [("level", Value.int 9)]).1 zeroImg =
      .ok (trivialExt.zlibc.compress [("level", Value.int 9)] (serializeF32 zeroImg.data)) :=
  ⟨rfl, rfl, rfl⟩

/-- C5 amended: when `zlib` is selected the settings mapping is left entirely
unchanged — `level` is not renamed or removed — and every subsequent encode
forwards these settings (including `level`) as the keyword arguments of
`zlib.compress`, so the configured level, not zlib's default, governs the
compression (zlib.compress accepts `level` as a keyword argument on the
Python 3.6+ interpreters this code runs on). -/
theorem c5_zlib_settings_forwarded (s : Dict) (E : ExtCodecs) (img : NDArray) :
    (selectAlgoSt "zlib" s).1 = s ∧
    (selectAlgoSt "zlib" s).2 = .ok (.builtin .zlib, .builtinD .zlib) ∧
    runCompMet E (.builtin .zlib) s img =
      .ok (E.zlibc.compress s (serializeF32 img.data)) :=
  ⟨rfl, rfl, rfl⟩

/-- C6: a successful `jpeg`/`jpg` selection stores under `settings["params"]`
the ordered tuple that starts with the quality flag and `level * 10`, followed
by flag/value pairs for exactly those of the five optional settings present in
the input mapping, in source order, with no defaults substituted for absent
options. -/
theorem c6_jpeg_param_assembly (algo : String) (s : Dict) (n : Int)
    (halgo : algo = "jpeg" ∨ algo = "jpg")
    (hlvl : dictGet s "level" = some (Value.int n))
    (s' : Dict) (r : CompMethod × DecompMethod)
    (hsel : selectAlgoSt algo s = (s', .ok r)) :
    ∃ ps : List Value,
      dictGet s' "params" = some (.vparams ps) ∧
      ps = [Value.int IMWRITE_JPEG_QUALITY, Value.int (n * 10)]
        ++ (match dictGet s "progressive" with
            | none => []
            | some v => [Value.int IMWRITE_JPEG_PROGRESSIVE, v])
        ++ (match dictGet s "optimize" with
            | none => []
            | some v => [Value.int IMWRITE_JPEG_OPTIMIZE, v])
        ++ (match dictGet s "rst_interval" with
            | none => []
            | some v => [Value.int IMWRITE_JPEG_RST_INTERVAL, v])
        ++ (match dictGet s "luma_quality" with
            | none => []
            | some v => [Value.int IMWRITE_JPEG_LUMA_QUALITY, v])
        ++ (match dictGet s "chroma_quality" with
            | none => []
            | some v => [Value.int IMWRITE_JPEG_CHROMA_QUALITY, v]) := by
  have hjb : jpegBranch s = (s', .ok r) := by
    rcases halgo with h | h <;> subst h
    · rwa [selectAlgoSt_jpeg] at hsel
    · rwa [selectAlgoSt_jpg] at hsel
  rw [jpegBranch_eq s _ hlvl] at hjb
  cases hjp : jpegParams (dictSet s "ext" (.str ".jpg"))
      [.int IMWRITE_JPEG_QUALITY, pyMulTen (.int n)] with
  | error e =>
    rw [hjp] at hjb
    exact absurd (congrArg Prod.snd hjb) (by simp)
  | ok ps =>
    rw [hjp] at hjb
    have hfst : dictSet (dictSet s "ext" (Value.str ".jpg")) "params" (Value.vparams ps) = s' := by
      have h := congrArg Prod.fst hjb
      simpa using h
    refine ⟨ps, ?_, ?_⟩
    · rw [← hfst]
      exact dictGet_set_self _ _ _
    · cases e1 : checkFlagOpt isInstBool (dictSet s "ext" (.str ".jpg")) "progressive"
          IMWRITE_JPEG_PROGRESSIVE "JPEG progressive requires bool"
          [.int IMWRITE_JPEG_QUALITY, pyMulTen (.int n)] with
      | error e => simp [jpegParams, e1, Except.bind, Bind.bind, Except.instMonad] at hjp
      | ok p1 =>
      cases e2 : checkFlagOpt isInstBool (dictSet s "ext" (.str ".jpg")) "optimize"
          IMWRITE_JPEG_OPTIMIZE "JPEG optimize requires bool input" p1 with
      | error e => simp [jpegParams, e1, e2, Except.bind, Bind.bind, Except.instMonad] at hjp
      | ok p2 =>
      cases e3 : checkFlagOpt isInstInt (dictSet s "ext" (.str ".jpg")) "rst_interval"
          IMWRITE_JPEG_RST_INTERVAL "JPEG rst_interval requires int" p2 with
      | error e => simp [jpegParams, e1, e2, e3, Except.bind, Bind.bind, Except.instMonad] at hjp
      | ok p3 =>
      cases e4 : checkFlagOpt isInstInt (dictSet s "ext" (.str ".jpg")) "luma_quality"
          IMWRITE_JPEG_LUMA_QUALITY "JPEG luma_quality requires int" p3 with
      | error e => simp [jpegParams, e1, e2, e3, e4, Except.bind, Bind.bind, Except.instMonad] at hjp
      | ok p4 =>
      cases e5 : checkFlagOpt isInstInt (dictSet s "ext" (.str ".jpg")) "chroma_quality"
          IMWRITE_JPEG_CHROMA_QUALITY "JPEG chroma_quality requires int" p4 with
      | error e => simp [jpegParams, e1, e2, e3, e4, e5, Except.bind, Bind.bind, Except.instMonad] at hjp
      | ok p5 =>
      have hps : ps = p5 := by
        simp [jpegParams, e1, e2, e3, e4, e5, Except.bind, Bind.bind, Except.instMonad] at hjp
        exact hjp.symm
      have s1 := checkFlagOpt_ok_shape _ _ _ _ _ _ _ e1
      have s2 := checkFlagOpt_ok_shape _ _ _ _ _ _ _ e2
      have s3 := checkFlagOpt_ok_shape _ _ _ _ _ _ _ e3
      have s4 := checkFlagOpt_ok_shape _ _ _ _ _ _ _ e4
      have s5 := checkFlagOpt_ok_shape _ _ _ _ _ _ _ e5
      rw [hps, s5, s4, s3, s2, s1]
      rw [dictGet_jpgExt s "progressive" (by decide),
          dictGet_jpgExt s "optimize" (by decide),
          dictGet_jpgExt s "rst_interval" (by decide),
          dictGet_jpgExt s "luma_quality" (by decide),
          dictGet_jpgExt s "chroma_quality" (by decide)]
      rfl

/-- C6 witness: with `{"level": 8, "optimize": True}` the resolved jpeg
parameter tuple is quality 80 followed by the optimize pair only. -/
theorem c6_witness :
    ∃ ps : List Value,
      dictGet (selectAlgoSt "jpeg"
        [("level", Value.int 8), ("optimize", Value.bool true)]).1 "params" =
        some (.vparams ps) ∧
      ps = [Value.int 1, Value.int 80, Value.int 3, Value.bool true] := by
  obtain ⟨ps, h1, h2⟩ := c6_jpeg_param_assembly "jpeg"
    [("level", Value.int 8), ("optimize", Value.bool true)] 8 (Or.inl rfl) rfl
    (selectAlgoSt "jpeg" [("level", Value.int 8), ("optimize", Value.bool true)]).1
    (.cvEncode, .cvDecode) rfl
  exact ⟨ps, h1, by rw [h2]; rfl⟩

/-- C7: a `Compressor` constructed without an algorithm or settings defaults
to `lzma` with `{"level": 9}`, and the lzma branch translates `level` into the
codec's `preset` keyword (here the int 9, inside 0..9), removing `level`. -/
theorem c7_default_lzma_config :
    (∀ rd : String, Compressor.init rd none none =
      ([("preset", Value.int 9)],
       .ok { image_dir := rd ++ "/rendering", imgs := [], img_ids := [],
             compMet := .builtin .lzma, decompMet := .builtinD .lzma,
             settings := [("preset", Value.int 9)] })) ∧
    (∀ (s : Dict) (v : Value), dictGet s "level" = some v →
      selectAlgoSt "lzma" s =
        (dictPop (dictSet s "preset" v) "level",
         .ok (.builtin .lzma, .builtinD .lzma))) := by
  constructor
  · intro rd
    rfl
  · intro s v h
    rw [selectAlgoSt_lzma]
    simp [renameLevelBranch, h]

/-- C7 witness: the default construction and a concrete lzma selection with
`{"level": 5}`. -/
theorem c7_witness :
    Compressor.init "r" none none =
      ([("preset", Value.int 9)],
       .ok { image_dir := "r" ++ "/rendering", imgs := [], img_ids := [],
             compMet := .builtin .lzma, decompMet := .builtinD .lzma,
             settings := [("preset", Value.int 9)] }) ∧
    selectAlgoSt "lzma" [("level", Value.int 5)] =
      (dictPop (dictSet [("level", Value.int 5)] "preset" (Value.int 5)) "level",
       .ok (.builtin .lzma, .builtinD .lzma)) :=
  ⟨c7_default_lzma_config.1 "r",
   c7_default_lzma_config.2 [("level", Value.int 5)] (Value.int 5) rfl⟩

theorem fsRead_fsWrite_self (fs : FileSys) (p : String) (a : List Nat) :
    fsRead (fsWrite fs p a) p = some a := by
  induction fs with
  | nil => simp [fsWrite, fsRead]
  | cons hd tl ih =>
    obtain ⟨q, c⟩ := hd
    by_cases h : q = p
    · simp [fsWrite, fsRead, h]
    · simp [fsWrite, fsRead, h, ih]

/-- C8: every successful `compress(img)` call writes the produced artifact to
the file `image_dir / img_ids[0]` — a destination that depends only on the
first loaded frame identifier, not on the image or the prior file contents, so
repeated calls on different images overwrite the same file — and returns the
artifact bytes. -/
theorem c8_compress_dest_and_return (E : ExtCodecs) (c : Compressor) (fs : FileSys)
    (img : NDArray) (id0 : String) (rest : List String)
    (hids : c.img_ids = id0 :: rest) (art : List Nat) (fs' : FileSys)
    (hok : c.compress E fs img = .ok (art, fs')) :
    runCompMet E c.compMet c.settings img = .ok art ∧
    fs' = fsWrite fs (c.image_dir ++ "/" ++ id0) art ∧
    fsRead fs' (c.image_dir ++ "/" ++ id0) = some art := by
  unfold Compressor.compress at hok
  cases hc : runCompMet E c.compMet c.settings img with
  | error e =>
    rw [hc] at hok
    simp at hok
  | ok a0 =>
    rw [hc, hids] at hok
    simp only at hok
    injection hok with h
    injection h with h1 h2
    subst h1
    subst h2
    exact ⟨rfl, rfl, fsRead_fsWrite_self _ _ _⟩

/-- C8 witness: a concrete compress call with the zlib codec pair writes the
artifact under `d/000` and returns it. -/
theorem c8_witness :
    runCompMet trivialExt witnessCompressor.compMet witnessCompressor.settings
      ⟨[4], [1, 2, 3, 4]⟩ = .ok (serializeF32 [1, 2, 3, 4]) ∧
    fsWrite [] (witnessCompressor.image_dir ++ "/" ++ "000") (serializeF32 [1, 2, 3, 4]) =
      fsWrite [] (witnessCompressor.image_dir ++ "/" ++ "000") (serializeF32 [1, 2, 3, 4]) ∧
    fsRead (fsWrite [] (witnessCompressor.image_dir ++ "/" ++ "000")
        (serializeF32 [1, 2, 3, 4]))
      (witnessCompressor.image_dir ++ "/" ++ "000") = some (serializeF32 [1, 2, 3, 4]) :=
  c8_compress_dest_and_return trivialExt witnessCompressor [] ⟨[4], [1, 2, 3, 4]⟩
    "000" [] rfl (serializeF32 [1, 2, 3, 4])
    (fsWrite [] (witnessCompressor.image_dir ++ "/" ++ "000") (serializeF32 [1, 2, 3, 4]))
    rfl

theorem foldl_append_map (f : String → NDArray) (ids : List String) :
    ∀ init : List NDArray,
      ids.foldl (fun acc id => acc ++ [f id]) init = init ++ ids.map f := by
  induction ids with
  | nil => intro init; simp
  | cons hd tl ih =>
    intro init
    simp [List.foldl_cons, ih]

/-- C9: one `load_images` call appends the images read for the chosen id list
to the in-memory image list, keeping every previously loaded image, and hence
any sequence of `load_images` calls only ever extends the list. -/
theorem c9_load_images_accumulate (reader : String → NDArray) (c : Compressor)
    (ids? : Option (List String)) (frameIds : List String) :
    ((c.loadImages reader ids? frameIds).imgs =
      c.imgs ++ (match ids? with
                 | none => frameIds
                 | some l => l).map
        (fun id => reader (c.image_dir ++ "/Comp_" ++ id ++ ".exr"))) ∧
    ∀ calls : List (Option (List String) × List String),
      ∃ tail, (applyLoads reader c calls).imgs = c.imgs ++ tail := by
  constructor
  · simp only [Compressor.loadImages]
    rw [foldl_append_map]
  · intro calls
    induction calls generalizing c with
    | nil => exact ⟨[], by simp [applyLoads]⟩
    | cons hd tl ih =>
      obtain ⟨ids?, der⟩ := hd
      obtain ⟨tail1, h1⟩ := ih (c.loadImages reader ids? der)
      refine ⟨(match ids? with
               | none => der
               | some l => l).map
          (fun id => reader (c.image_dir ++ "/Comp_" ++ id ++ ".exr")) ++ tail1, ?_⟩
      rw [applyLoads, h1]
      simp only [Compressor.loadImages]
      rw [foldl_append_map]
      simp [List.append_assoc]

/-- C10: when `select_algo` raises, the three configuration attributes
(`_comp_met`, `_decomp_met`, `_settings`) keep their previous values, because
the source assigns them only after every validation has passed; yet the
caller-supplied settings dict may already have been mutated in place, as the
concrete failing jpeg selection shows (`"ext"` was inserted before the
progressive check raised). -/
theorem c10_select_failure_preserves_config :
    (∀ (c : Compressor) (a : String) (s : Dict) (e : PyError),
      (c.selectAlgoRun a s).2.2 = .error e →
      (c.selectAlgoRun a s).1.compMet = c.compMet ∧
      (c.selectAlgoRun a s).1.decompMet = c.decompMet ∧
      (c.selectAlgoRun a s).1.settings = c.settings) ∧
    ((selectAlgoSt "jpeg" [("level", Value.int 3), ("progressive", Value.int 1)]).2 =
      .error (.compressionError "JPEG progressive requires bool") ∧
     dictGet (selectAlgoSt "jpeg"
        [("level", Value.int 3), ("progressive", Value.int 1)]).1 "ext" =
       some (Value.str ".jpg") ∧
     dictGet [("level", Value.int 3), ("progressive", Value.int 1)] "ext" = none) := by
  refine ⟨?_, rfl, rfl, rfl⟩
  intro c a s e herr
  unfold Compressor.selectAlgoRun at herr ⊢
  cases hsel : selectAlgoSt a s with
  | mk s1 r =>
    rw [hsel] at herr
    cases r with
    | error e0 => exact ⟨rfl, rfl, rfl⟩
    | ok pr => simp at herr

/-- C10 witness: the failing jpeg selection leaves a configured compressor's
codec pair and settings untouched. -/
theorem c10_witness :
    (witnessCompressor.selectAlgoRun "jpeg"
        [("level", Value.int 3), ("progressive", Value.int 1)]).1.compMet =
      witnessCompressor.compMet ∧
    (witnessCompressor.selectAlgoRun "jpeg"
        [("level", Value.int 3), ("progressive", Value.int 1)]).1.decompMet =
      witnessCompressor.decompMet ∧
    (witnessCompressor.selectAlgoRun "jpeg"
        [("level", Value.int 3), ("progressive", Value.int 1)]).1.settings =
      witnessCompressor.settings :=
  c10_select_failure_preserves_config.1 witnessCompressor "jpeg"
    [("level", Value.int 3), ("progressive", Value.int 1)]
    (.compressionError "JPEG progressive requires bool") rfl

end Sispo
